import Mathlib

/-!
Verification development for the VLESS-over-WebSocket Cloudflare worker
(`src/_worker.js`).  The protocol core — the first-message (handshake)
handler `handleVLESSProtocol`/`firstMessageHandler`, the TCP relay
`proxyTCP`, and the UDP path `handleUDP` — is shallowly embedded below.

Modelling conventions:
* A `Uint8Array` is a `List Nat` whose entries are `< 256` (carried as a
  hypothesis in general theorems; concrete inputs satisfy it by computation).
* A JS indexed read `buffer[i]` on a typed array yields `undefined` when out
  of range; this is modelled by `Option Nat` (`none` = `undefined`).
* JS strings are modelled as `List Char`.
* The effects performed by a handler (WebSocket sends, closes, listener
  registration, outbound `fetch` calls) are reified as a list of `Action`s in
  program order.
-/

set_option maxRecDepth 4000

namespace VlessWorker

/-- JS typed-array indexed read: `buffer[i]`, `undefined` out of range. -/
def jsIndex (l : List Nat) (i : Nat) : Option Nat := l[i]?

/-- `Uint8Array.prototype.slice(b, e)` (clamping semantics). -/
def jsSlice (l : List Nat) (b e : Nat) : List Nat := (l.take e).drop b

/-- Coercion applied by JS bitwise operators: `undefined` → `NaN` → `0`. -/
def jsToBits (v : Option Nat) : Nat := v.getD 0

/-- `(buffer[18] << 8) | buffer[19]` — the big-endian destination port. -/
def portValue (buf : List Nat) : Nat :=
  (jsToBits (jsIndex buf 18) <<< 8) ||| jsToBits (jsIndex buf 19)

/-- ASCII `String.prototype.toLowerCase` on one character. -/
def lowChar (c : Char) : Char :=
  if 'A' ≤ c ∧ c ≤ 'Z' then Char.ofNat (c.toNat + 32) else c

/-- `String.prototype.toLowerCase`. -/
def lowList (l : List Char) : List Char := l.map lowChar

/-- `b.toString(16).padStart(2, '0')` for a byte `b < 256` (the only values a
`Uint8Array` can hold, hence the only values the source ever passes). -/
def byteHex (b : Nat) : List Char :=
  if b < 16 then ['0', Nat.digitChar b]
  else [Nat.digitChar (b / 16), Nat.digitChar (b % 16)]

/-- `arrayBufferToHexString`: hex-encode a byte buffer (`map` + `join('')`). -/
def hexOfBytes (bs : List Nat) : List Char := (bs.map byteHex).flatten

/-- `String.prototype.substr(s, n)`. -/
def jsSubstr (l : List Char) (s n : Nat) : List Char := (l.drop s).take n

/-- `formatUUID`: insert hyphens into a 32-char hex string via `substr`. -/
def formatUUID (h : List Char) : List Char :=
  jsSubstr h 0 8 ++ '-' :: jsSubstr h 8 4 ++ '-' :: jsSubstr h 12 4 ++
    '-' :: jsSubstr h 16 4 ++ '-' :: jsSubstr h 20 12

/-- One entry of the hard-coded `VLESS_USERS` table. -/
structure VlessUser where
  uuid : List Char
  email : List Char
  level : Nat
  alterId : Nat
deriving DecidableEq

/-- The single hard-coded user of the `VLESS_USERS` table. -/
def vlessUser0 : VlessUser :=
  { uuid := "62a9adef-40b2-477a-861f-ce1e8604bc34".toList,
    email := "user@example.com".toList,
    level := 0,
    alterId := 0 }

/-- The hard-coded `VLESS_USERS` list (a single user). -/
def VLESS_USERS : List VlessUser := [vlessUser0]

/-- The 16 identifier bytes of the single configured user (the byte form of
`62a9adef-40b2-477a-861f-ce1e8604bc34`). -/
def vlessUserBytes : List Nat :=
  [0x62, 0xa9, 0xad, 0xef, 0x40, 0xb2, 0x47, 0x7a,
   0x86, 0x1f, 0xce, 0x1e, 0x86, 0x04, 0xbc, 0x34]

/-- The UUID string computed by the handler from a first message:
`formatUUID(arrayBufferToHexString(buffer.slice(0, 16).buffer))`. -/
def uuidOfBuffer (buf : List Nat) : List Char :=
  formatUUID (hexOfBytes (jsSlice buf 0 16))

/-- `VLESS_USERS.find(u => u.uuid.toLowerCase() === uuid.toLowerCase())`. -/
def vlessFind (buf : List Nat) : Option VlessUser :=
  VLESS_USERS.find? (fun u => lowList u.uuid == lowList (uuidOfBuffer buf))

/-- `hay.startsWith(pre)` / prefix test on lists. -/
def startsList {α : Type} [DecidableEq α] : List α → List α → Bool
  | [], _ => true
  | _ :: _, [] => false
  | p :: ps, h :: hs => if p = h then startsList ps hs else false

/-- Index of the first occurrence of `sep` in `hay` (for `split`/`includes`). -/
def findSub (sep : List Char) : List Char → Option Nat
  | [] => if sep = [] then some 0 else none
  | c :: rest =>
    if startsList sep (c :: rest) then some 0
    else (findSub sep rest).map (· + 1)

/-- `hay.includes(needle)`. -/
def containsSub (hay needle : List Char) : Bool := (findSub needle hay).isSome

/-- Worker for `String.prototype.split` with a non-empty separator; the fuel
is an upper bound on the number of separators (the string length suffices). -/
def jsSplitGo (sep : List Char) : Nat → List Char → List (List Char)
  | 0, l => [l]
  | fuel + 1, l =>
    match findSub sep l with
    | none => [l]
    | some i => l.take i :: jsSplitGo sep fuel (l.drop (i + sep.length))

/-- `text.split(sep)` for a non-empty separator. -/
def jsSplit (sep l : List Char) : List (List Char) := jsSplitGo sep l.length l

/-- JS decimal rendering of a natural number (template-literal `${n}`). -/
def natDec (n : Nat) : List Char := Nat.toDigits 10 n

/-- `${x}` for a typed-array read: a number prints in decimal and a missing
entry prints as `undefined`. -/
def jsTemplateNum : Option Nat → List Char
  | some n => natDec n
  | none => "undefined".toList

/-- The Unicode replacement character emitted by `TextDecoder` on errors. -/
def replChar : Char := Char.ofNat 0xFFFD

/-- UTF-8 decoding loop of `TextDecoder().decode` (replacement on errors,
never throws).  Fuel: each step consumes at least one byte, so the byte count
bounds the number of steps. -/
def utf8Go : Nat → List Nat → List Char
  | 0, _ => []
  | _, [] => []
  | fuel + 1, b :: rest =>
    if b < 0x80 then Char.ofNat b :: utf8Go fuel rest
    else if 0xC2 ≤ b ∧ b ≤ 0xDF then
      match rest with
      | [] => [replChar]
      | b1 :: r1 =>
        if 0x80 ≤ b1 ∧ b1 ≤ 0xBF then
          Char.ofNat ((b - 0xC0) * 0x40 + (b1 - 0x80)) :: utf8Go fuel r1
        else replChar :: utf8Go fuel rest
    else if 0xE0 ≤ b ∧ b ≤ 0xEF then
      match rest with
      | [] => [replChar]
      | b1 :: r1 =>
        if (if b = 0xE0 then 0xA0 else 0x80) ≤ b1 ∧
            b1 ≤ (if b = 0xED then 0x9F else 0xBF) then
          match r1 with
          | [] => [replChar]
          | b2 :: r2 =>
            if 0x80 ≤ b2 ∧ b2 ≤ 0xBF then
              Char.ofNat ((b - 0xE0) * 0x1000 + (b1 - 0x80) * 0x40 + (b2 - 0x80)) ::
                utf8Go fuel r2
            else replChar :: utf8Go fuel r1
        else replChar :: utf8Go fuel rest
    else if 0xF0 ≤ b ∧ b ≤ 0xF4 then
      match rest with
      | [] => [replChar]
      | b1 :: r1 =>
        if (if b = 0xF0 then 0x90 else 0x80) ≤ b1 ∧
            b1 ≤ (if b = 0xF4 then 0x8F else 0xBF) then
          match r1 with
          | [] => [replChar]
          | b2 :: r2 =>
            if 0x80 ≤ b2 ∧ b2 ≤ 0xBF then
              match r2 with
              | [] => [replChar]
              | b3 :: r3 =>
                if 0x80 ≤ b3 ∧ b3 ≤ 0xBF then
                  Char.ofNat ((b - 0xF0) * 0x40000 + (b1 - 0x80) * 0x1000 +
                      (b2 - 0x80) * 0x40 + (b3 - 0x80)) :: utf8Go fuel r3
                else replChar :: utf8Go fuel r2
            else replChar :: utf8Go fuel r1
        else replChar :: utf8Go fuel rest
    else replChar :: utf8Go fuel rest

/-- `new TextDecoder().decode(bytes)`: UTF-8 with replacement; the default
decoder strips a leading byte-order mark. -/
def utf8Decode (bs : List Nat) : List Char :=
  let body := if startsList [0xEF, 0xBB, 0xBF] bs then bs.drop 3 else bs
  utf8Go body.length body

/-- Length (capped at `cap`) of the run of `'0'` characters heading `l`,
for the greedy `0{1,4}` quantifier. -/
def countZeros : List Char → Nat → Nat
  | [], _ => 0
  | _, 0 => 0
  | c :: rest, cap + 1 => if c = '0' then countZeros rest cap + 1 else 0

/-- Length of the run of `':'` characters heading `l` (greedy `:{2,}`). -/
def countColons : List Char → Nat
  | [] => 0
  | c :: rest => if c = ':' then countColons rest + 1 else 0

/-- `replace(/(?:^|:)0{1,4}/g, ':')`: left-to-right global scan; the `^`
alternative applies only at index 0.  Fuel: one unit per character scanned. -/
def repl1Go : Nat → Bool → List Char → List Char
  | 0, _, l => l
  | _, _, [] => []
  | fuel + 1, atStart, c :: rest =>
    if atStart ∧ c = '0' then
      ':' :: repl1Go fuel false ((c :: rest).drop (countZeros (c :: rest) 4))
    else if c = ':' ∧ 1 ≤ countZeros rest 4 then
      ':' :: repl1Go fuel false (rest.drop (countZeros rest 4))
    else
      c :: repl1Go fuel false rest

/-- First regex pass of the IPv6 formatter. -/
def repl1 (l : List Char) : List Char := repl1Go l.length true l

/-- `replace(/^0{1,4}/, '')`. -/
def repl2 (l : List Char) : List Char := l.drop (countZeros l 4)

/-- `replace(/:{2,}/g, '::')`: collapse every run of two or more colons. -/
def repl3Go : Nat → List Char → List Char
  | 0, l => l
  | _, [] => []
  | fuel + 1, c :: rest =>
    if c = ':' ∧ 1 ≤ countColons rest then
      ':' :: ':' :: repl3Go fuel (rest.drop (countColons rest))
    else c :: repl3Go fuel rest

/-- Third regex pass of the IPv6 formatter. -/
def repl3 (l : List Char) : List Char := repl3Go l.length l

/-- The source's IPv6 text: per-byte hex pairs joined by `':'`, then the three
regex `replace` passes. -/
def ipv6Format (bs : List Nat) : List Char :=
  repl3 (repl2 (repl1 (List.intercalate [':'] (bs.map byteHex))))

/-- Case 1 of the address switch: dotted-decimal from bytes 21–24. -/
def ipv4Text (buf : List Nat) : List Char :=
  jsTemplateNum (jsIndex buf 21) ++ '.' :: jsTemplateNum (jsIndex buf 22) ++
    '.' :: jsTemplateNum (jsIndex buf 23) ++ '.' :: jsTemplateNum (jsIndex buf 24)

/-- Case 2 of the address switch: `decode(buffer.slice(22, 22 + L))` where
`L = buffer[21]`; a missing length byte makes `22 + undefined = NaN`, and a
`NaN` end index clamps to `0` (empty slice). -/
def domainText (buf : List Nat) : List Char :=
  utf8Decode (jsSlice buf 22 (match jsIndex buf 21 with
    | some l => 22 + l
    | none => 0))

/-- Case 3 of the address switch: format `buffer.slice(21, 37)`. -/
def ipv6Text (buf : List Nat) : List Char := ipv6Format (jsSlice buf 21 37)

/-- A WebSocket message: `event.data` is either an `ArrayBuffer` or text. -/
inductive MessageData where
  | binary (bytes : List Nat)
  | text (s : List Char)
deriving DecidableEq

/-- The `requestInit` object built for the HTTP branch of `proxyTCP`. -/
structure RequestInit where
  method : List Char
  headers : List (List Char × List Char)
  body : Option (List Char)
deriving DecidableEq

/-- Observable effects of the handlers, in program order.
* `send`/`sendText`: `websocket.send` of raw bytes / of `TextEncoder` output;
* `close`: `websocket.close(code, reason)`;
* `registerTCPProxy`: `proxyTCP(websocket, host, port)` — registers the relay
  message listener (its per-message behaviour is `proxyTCPMessage`);
* `fetchRequest`: the `fetch(url, requestInit)` call of the HTTP branch (its
  asynchronous completion — sending the response body, or a 502 string on
  error — is delivered by the environment and outside one handler step). -/
inductive Action where
  | send (bytes : List Nat)
  | sendText (s : List Char)
  | close (code : Nat) (reason : List Char)
  | registerTCPProxy (host : List Char) (port : Nat)
  | fetchRequest (url : List Char) (init : RequestInit)
deriving DecidableEq

/-- The session-level listener state implied by the source's listener
shuffling: `awaitingFirst` — the `{ once: true }` first-message handler is
installed; `tcpRelay` — `proxyTCP`'s handler is installed; `udpDone` —
`handleUDP` ran and installed no handler; `closed` — the socket was closed. -/
inductive SessState where
  | awaitingFirst
  | tcpRelay (host : List Char) (port : Nat)
  | udpDone
  | closed
deriving DecidableEq

/-- The mutable variables of `handleVLESSProtocol` (`userId`, `targetHost`,
`targetPort`, `isUDP`) as left by the first-message handler. -/
structure SessionVars where
  userId : Option (List Char) := none
  targetHost : Option (List Char) := none
  targetPort : Option Nat := none
  isUDP : Bool := false
deriving DecidableEq

/-- Result of one run of the first-message handler. -/
structure FirstResult where
  vars : SessionVars
  acts : List Action
  next : SessState
deriving DecidableEq

/-- `handleUDP(websocket, host, port)`: the simulated text response. -/
def udpSimText (host : List Char) (port : Nat) : List Char :=
  "UDP to ".toList ++ host ++ ':' :: natDec port ++ " received (simulated)".toList

/-- Actions of `handleUDP`. -/
def handleUDPActions (host : List Char) (port : Nat) : List Action :=
  [Action.sendText (udpSimText host port)]

/-- Shared success tail of the first-message handler: assign
`userId`/`targetHost`/`targetPort`/`isUDP`, send the `[0, 0]` response, then
either run `handleUDP` or hand the socket to `proxyTCP`. -/
def finishConn (uuid host : List Char) (port : Nat) (udp : Bool) : FirstResult :=
  { vars := { userId := some uuid, targetHost := some host,
              targetPort := some port, isUDP := udp },
    acts := Action.send [0, 0] ::
      (if udp then handleUDPActions host port else [Action.registerTCPProxy host port]),
    next := if udp then SessState.udpDone else SessState.tcpRelay host port }

/-- `firstMessageHandler` of `handleVLESSProtocol`: UUID extraction and
lookup, header field reads, the address-type switch, the `[0, 0]` response
and the TCP/UDP dispatch.  Close calls map to `SessState.closed`; no branch
of the embedded handler throws, so the `catch`/`close(1011)` wrapper of the
source is unreachable in the model. -/
def firstMessage (m : MessageData) : FirstResult :=
  match m with
  | MessageData.text _ =>
    { vars := {}, acts := [Action.close 1008 "Invalid data format".toList],
      next := SessState.closed }
  | MessageData.binary buf =>
    match vlessFind buf with
    | none =>
      { vars := {}, acts := [Action.close 1008 "Invalid user".toList],
        next := SessState.closed }
    | some _ =>
      match jsIndex buf 20 with
      | some 1 =>
        finishConn (uuidOfBuffer buf) (ipv4Text buf) (portValue buf)
          (jsIndex buf 17 == some 2)
      | some 2 =>
        finishConn (uuidOfBuffer buf) (domainText buf) (portValue buf)
          (jsIndex buf 17 == some 2)
      | some 3 =>
        finishConn (uuidOfBuffer buf) (ipv6Text buf) (portValue buf)
          (jsIndex buf 17 == some 2)
      | _ =>
        { vars := { userId := some (uuidOfBuffer buf) },
          acts := [Action.close 1008 "Invalid address type".toList],
          next := SessState.closed }

/-- `port === 80 || port === 443 || host.includes('.com') ||
host.includes('.org') || host.includes('.net')`. -/
def httpLikeDest (host : List Char) (port : Nat) : Bool :=
  port == 80 || port == 443 || containsSub host ".com".toList ||
    containsSub host ".org".toList || containsSub host ".net".toList

/-- `text.startsWith('GET ') || text.startsWith('POST ') ||
text.startsWith('CONNECT ')`. -/
def isHttpText (text : List Char) : Bool :=
  startsList "GET ".toList text || startsList "POST ".toList text ||
    startsList "CONNECT ".toList text

/-- JS object assignment on a string-keyed record: later assignment to an
existing key overwrites, a new key is appended in insertion order. -/
def objSet : List (List Char × List Char) → List Char → List Char →
    List (List Char × List Char)
  | [], k, v => [(k, v)]
  | (k0, v0) :: hs, k, v =>
    if k0 = k then (k0, v) :: hs else (k0, v0) :: objSet hs k v

/-- The header loop of the HTTP branch: `for (i = 1; …)` over the request
lines with `break` on the first empty line; each line is split on `': '`,
the first two segments are destructured as key and value, and a truthy pair
is stored with `requestInit.headers[key] = value`. -/
def parseHeadersGo : List (List Char) → List (List Char × List Char) →
    List (List Char × List Char)
  | [], hs => hs
  | line :: rest, hs =>
    if line = [] then hs
    else
      let parts := jsSplit ": ".toList line
      let key := parts.headD []
      match parts[1]? with
      | some v =>
        if key ≠ [] ∧ v ≠ [] then parseHeadersGo rest (objSet hs key v)
        else parseHeadersGo rest hs
      | none => parseHeadersGo rest hs

/-- The `requestInit` built from an HTTP-looking request text: method is the
first space-separated token; headers come from the lines after the first, up
to the first empty line; body is the segment between the first and second
blank lines when one exists. -/
def buildRequestInit (text : List Char) : RequestInit :=
  { method := (jsSplit " ".toList text).headD [],
    headers := parseHeadersGo ((jsSplit "\r\n".toList text).drop 1) [],
    body :=
      if containsSub text "\r\n\r\n".toList then
        some ((jsSplit "\r\n\r\n".toList text).getD 1 [])
      else none }

/-- `` `http${port === 443 ? 's' : ''}://${host}:${port}` ``. -/
def urlText (host : List Char) (port : Nat) : List Char :=
  "http".toList ++ (if port == 443 then ['s'] else []) ++ "://".toList ++
    host ++ ':' :: natDec port

/-- The message handler registered by `proxyTCP(websocket, host, port)`:
non-binary data is ignored; on an "http-like" destination a GET/POST request
text triggers a `fetch`, a CONNECT text gets a canned 200 response and a
close; everything else is echoed back to the client with `websocket.send`. -/
def proxyTCPMessage (host : List Char) (port : Nat) (m : MessageData) :
    List Action :=
  match m with
  | MessageData.text _ => []
  | MessageData.binary bytes =>
    let text := utf8Decode bytes
    if httpLikeDest host port then
      if isHttpText text then
        if startsList "CONNECT ".toList text then
          [Action.sendText "HTTP/1.1 200 Connection Established\r\n\r\n".toList,
           Action.close 1000 "CONNECT not fully supported".toList]
        else
          [Action.fetchRequest (urlText host port) (buildRequestInit text)]
      else [Action.send bytes]
    else [Action.send bytes]

/-- Does an action list contain a `close` call? -/
def anyClose (acts : List Action) : Bool :=
  acts.any fun a => match a with
    | Action.close _ _ => true
    | _ => false

/-- Run a whole session over a list of inbound client messages, starting from
a listener state.  Returns the final state, the concatenated actions, and how
many messages were consumed by the first-message (handshake) handler.
`udpDone` has no registered message listener, so inbound messages produce
nothing; after `closed` no handler runs either. -/
def runSession : SessState → List MessageData → SessState × List Action × Nat
  | s, [] => (s, [], 0)
  | SessState.awaitingFirst, m :: ms =>
    let r := firstMessage m
    let rest := runSession r.next ms
    (rest.1, r.acts ++ rest.2.1, rest.2.2 + 1)
  | SessState.tcpRelay host port, m :: ms =>
    let acts1 := proxyTCPMessage host port m
    let rest := runSession
      (if anyClose acts1 then SessState.closed else SessState.tcpRelay host port) ms
    (rest.1, acts1 ++ rest.2.1, rest.2.2)
  | SessState.udpDone, _ :: ms => runSession SessState.udpDone ms
  | SessState.closed, _ :: ms => runSession SessState.closed ms

/-- Is this action the 2-byte success response `[0x00, 0x00]`? -/
def isResp : Action → Bool
  | Action.send bs => bs == [0, 0]
  | _ => false

/-- Number of success responses in an action list. -/
def respCount (acts : List Action) : Nat := (acts.filter isResp).length

/-- Is this action an outbound `fetch` (the source's only way of contacting
any destination)? -/
def isFetchAct : Action → Bool
  | Action.fetchRequest _ _ => true
  | _ => false

/-- Modelled from the spec: the canonical IPv6 text the spec's AddressCodec
requires for tag 3 — eight 16-bit groups in lowercase hex without leading
zeros, with the first-encountered maximal run of zero groups collapsed to
`::`.  The source contains no such formatter; this definition exists only to
compare the source's `ipv6Format` against the specified behaviour. -/
def specIPv6Groups : List Nat → List Nat
  | b1 :: b2 :: rest => (b1 * 256 + b2) :: specIPv6Groups rest
  | _ => []

/-- Lowercase hex of a group value without leading zeros (fuel recursion). -/
def specHexGo : Nat → Nat → List Char
  | 0, _ => []
  | fuel + 1, n =>
    if n < 16 then [Nat.digitChar n]
    else specHexGo fuel (n / 16) ++ [Nat.digitChar (n % 16)]

/-- Lowercase hex of a group value (`0` prints as `"0"`). -/
def specHex (n : Nat) : List Char := specHexGo (n + 1) n

/-- Length of the zero-group run starting at the head. -/
def specZeroRun : List Nat → Nat
  | 0 :: rest => specZeroRun rest + 1
  | _ => 0

/-- Start index and length of the first maximal run of zero groups. -/
def specBestRun : List Nat → Nat × Nat
  | [] => (0, 0)
  | g :: gs =>
    let here := specZeroRun (g :: gs)
    let (s, l) := specBestRun gs
    if here ≥ l + (if here > 0 then 0 else 1) then (0, here) else (s + 1, l)

/-- Modelled from the spec: canonical IPv6 formatting of 16 address bytes. -/
def specIPv6Canonical (bs : List Nat) : List Char :=
  let gs := specIPv6Groups bs
  let (s, l) := specBestRun gs
  if l ≥ 1 then
    List.intercalate [':'] ((gs.take s).map specHex) ++ ':' :: ':' ::
      List.intercalate [':'] ((gs.drop (s + l)).map specHex)
  else
    List.intercalate [':'] (gs.map specHex)

/-- Modelled from the spec: `UdpFramer` decoding — a message is a sequence of
2-byte big-endian length prefixes each followed by exactly that many payload
bytes; anything else is a framing error (`none`).  The source implements no
such framer; this definition exists only to exhibit what the spec requires of
a message the source ignores. -/
def specUdpGo : Nat → List Nat → Option (List (List Nat))
  | _, [] => some []
  | 0, _ :: _ => none
  | fuel + 1, b1 :: b2 :: rest =>
    let len := b1 * 256 + b2
    if len ≤ rest.length then
      (specUdpGo fuel (rest.drop len)).map ((rest.take len) :: ·)
    else none
  | _ + 1, [_] => none

/-- Modelled from the spec: decode a client message into its datagrams. -/
def specUdpDatagrams (msg : List Nat) : Option (List (List Nat)) :=
  specUdpGo msg.length msg

/-- The hex digits of the configured UUID without hyphens. -/
def uuidHexChars : List Char := "62a9adef40b2477a861fce1e8604bc34".toList

/-- A complete TCP handshake: valid identifier, options `0`, command `1`,
port `443`, IPv4 address `93.184.216.34`. -/
def hsTCPBuf : List Nat := vlessUserBytes ++ [0, 1, 0x01, 0xBB, 1, 93, 184, 216, 34]

/-- A complete UDP handshake: valid identifier, command `2`, port `53`,
IPv4 address `93.184.216.34`. -/
def hsUDPBuf : List Nat := vlessUserBytes ++ [0, 2, 0x00, 0x35, 1, 93, 184, 216, 34]

/-- A handshake identical to `hsTCPBuf` except its command byte is `3`,
which is neither `1` (TCP) nor `2` (UDP). -/
def hsCmd3Buf : List Nat := vlessUserBytes ++ [0, 3, 0x01, 0xBB, 1, 93, 184, 216, 34]

/-- A 17-byte first message: the valid 16-byte identifier plus the options
byte, shorter than the 18-byte minimum required by the specification. -/
def shortBuf17 : List Nat := vlessUserBytes ++ [0]

/-- The 16 bytes of the all-ones IPv6 address. -/
def ipv6AllOnes : List Nat := List.replicate 16 0xff

/-- The 16 bytes of the IPv6 address `2001:db8::1`. -/
def ipv6Mixed : List Nat := [0x20, 0x01, 0x0d, 0xb8] ++ List.replicate 11 0 ++ [0x01]

/-- `vlessUserBytes` with the lowest bit of the first byte flipped
(`0x62` → `0x63`). -/
def flippedBytes : List Nat :=
  [0x63, 0xa9, 0xad, 0xef, 0x40, 0xb2, 0x47, 0x7a,
   0x86, 0x1f, 0xce, 0x1e, 0x86, 0x04, 0xbc, 0x34]

/-- The bytes of an HTTP request text, as a relay-phase client message. -/
def getReqBytes : List Nat := "GET / HTTP/1.1\r\n\r\n".toList.map Char.toNat

/-- A complete TCP handshake to `10.0.0.1:80` (25 bytes, IPv4 address). -/
def hsC3Buf : List Nat := vlessUserBytes ++ [0, 1, 0x00, 0x50, 1, 10, 0, 0, 1]

/-- Four payload bytes trailing a complete handshake in the first message. -/
def payloadTail : List Nat := [0xDE, 0xAD, 0xBE, 0xEF]

/-- A handshake whose command byte is `0` (neither TCP=1 nor UDP=2). -/
def hsCmd0Buf : List Nat := vlessUserBytes ++ [0, 0, 0x01, 0xBB, 1, 10, 1, 2, 3]

/-- A complete IPv6 handshake carrying the all-ones address. -/
def hsIPv6Buf : List Nat := vlessUserBytes ++ [0, 1, 0x01, 0xBB, 3] ++ ipv6AllOnes

/-! ## Helper lemmas: the UUID comparison is an exact 16-byte match -/

theorem byteHex_length (b : Nat) : (byteHex b).length = 2 := by
  unfold byteHex; split <;> rfl

theorem hexOfBytes_nil : hexOfBytes [] = [] := rfl

theorem hexOfBytes_cons (b : Nat) (bs : List Nat) :
    hexOfBytes (b :: bs) = byteHex b ++ hexOfBytes bs := by
  simp [hexOfBytes]

theorem hexOfBytes_length (bs : List Nat) :
    (hexOfBytes bs).length = 2 * bs.length := by
  induction bs with
  | nil => rfl
  | cons b bs ih =>
    rw [hexOfBytes_cons, List.length_append, byteHex_length, ih,
      List.length_cons]
    ring

theorem digitChar_fin_inj : ∀ a b : Fin 16,
    Nat.digitChar a.val = Nat.digitChar b.val → a = b := by decide

theorem digitChar_inj16 (a b : Nat) (ha : a < 16) (hb : b < 16)
    (h : Nat.digitChar a = Nat.digitChar b) : a = b := by
  have := digitChar_fin_inj ⟨a, ha⟩ ⟨b, hb⟩ h
  exact congrArg Fin.val this

theorem digitChar_ne_zero_char : ∀ n : Fin 16,
    n.val ≠ 0 → Nat.digitChar n.val ≠ '0' := by decide

theorem lowChar_digitChar : ∀ n : Fin 16,
    lowChar (Nat.digitChar n.val) = Nat.digitChar n.val := by decide

theorem lowList_byteHex (b : Nat) (hb : b < 256) :
    lowList (byteHex b) = byteHex b := by
  unfold byteHex
  split
  · next h =>
    simp only [lowList, List.map]
    rw [show lowChar '0' = '0' from rfl, lowChar_digitChar ⟨b, h⟩]
  · next h =>
    have h1 : b / 16 < 16 := by omega
    have h2 : b % 16 < 16 := Nat.mod_lt _ (by omega)
    simp only [lowList, List.map]
    rw [lowChar_digitChar ⟨b / 16, h1⟩, lowChar_digitChar ⟨b % 16, h2⟩]

theorem lowList_hexOfBytes (bs : List Nat) (hw : ∀ b ∈ bs, b < 256) :
    lowList (hexOfBytes bs) = hexOfBytes bs := by
  induction bs with
  | nil => rfl
  | cons b bs ih =>
    rw [hexOfBytes_cons]
    simp only [lowList, List.map_append] at *
    rw [show List.map lowChar (byteHex b) = byteHex b from
      lowList_byteHex b (hw b (by simp))]
    rw [ih fun x hx => hw x (by simp [hx])]

theorem lowList_formatUUID (h : List Char) :
    lowList (formatUUID h) = formatUUID (lowList h) := by
  simp only [formatUUID, jsSubstr, lowList, List.map_append, List.map_cons,
    List.map_take, List.map_drop]
  rfl

theorem formatUUID_length (h : List Char) : (formatUUID h).length =
    min 8 h.length + min 4 (h.length - 8) + min 4 (h.length - 12) +
      min 4 (h.length - 16) + min 12 (h.length - 20) + 4 := by
  simp [formatUUID, jsSubstr]
  omega

theorem byteHex_inj (a b : Nat) (ha : a < 256) (hb : b < 256)
    (he : byteHex a = byteHex b) : a = b := by
  unfold byteHex at he
  by_cases h1 : a < 16 <;> by_cases h2 : b < 16 <;> simp [h1, h2] at he
  · exact digitChar_inj16 a b h1 h2 he
  · exact absurd he.1.symm
      (digitChar_ne_zero_char ⟨b / 16, by omega⟩ (show b / 16 ≠ 0 by omega))
  · exact absurd he.1
      (digitChar_ne_zero_char ⟨a / 16, by omega⟩ (show a / 16 ≠ 0 by omega))
  · have e1 := digitChar_inj16 (a / 16) (b / 16) (by omega) (by omega) he.1
    have e2 := digitChar_inj16 (a % 16) (b % 16) (by omega) (by omega) he.2
    omega

theorem hexOfBytes_inj (as : List Nat) : ∀ (bs : List Nat),
    (∀ b ∈ as, b < 256) → (∀ b ∈ bs, b < 256) →
    hexOfBytes as = hexOfBytes bs → as = bs := by
  induction as with
  | nil =>
    intro bs _ _ he
    cases bs with
    | nil => rfl
    | cons b bs =>
      exfalso
      have := congrArg List.length he
      rw [hexOfBytes_length, hexOfBytes_length] at this
      simp at this
  | cons a as ih =>
    intro bs hwa hwb he
    cases bs with
    | nil =>
      exfalso
      have := congrArg List.length he
      rw [hexOfBytes_length, hexOfBytes_length] at this
      simp at this
    | cons b bs =>
      rw [hexOfBytes_cons, hexOfBytes_cons] at he
      obtain ⟨e1, e2⟩ := List.append_inj he
        (by rw [byteHex_length, byteHex_length])
      have hab : a = b :=
        byteHex_inj a b (hwa a (by simp)) (hwb b (by simp)) e1
      have hrest : as = bs := ih bs (fun x hx => hwa x (by simp [hx]))
        (fun x hx => hwb x (by simp [hx])) e2
      rw [hab, hrest]

theorem formatUUID_inj32 (h₁ h₂ : List Char) (l₁ : h₁.length = 32)
    (l₂ : h₂.length = 32) (he : formatUUID h₁ = formatUUID h₂) : h₁ = h₂ := by
  unfold formatUUID jsSubstr at he
  simp only [List.drop_zero] at he
  obtain ⟨e1, he5⟩ := List.append_inj he (by simp [l₁, l₂])
  simp only [List.cons.injEq, true_and] at he5
  obtain ⟨e2, he4⟩ := List.append_inj e1 (by simp [l₁, l₂])
  simp only [List.cons.injEq, true_and] at he4
  obtain ⟨e3, he3⟩ := List.append_inj e2 (by simp [l₁, l₂])
  simp only [List.cons.injEq, true_and] at he3
  obtain ⟨e4, he2⟩ := List.append_inj e3 (by simp [l₁, l₂])
  simp only [List.cons.injEq, true_and] at he2
  have r : ∀ h : List Char, h.length = 32 →
      h = h.take 8 ++ ((h.drop 8).take 4 ++ ((h.drop 12).take 4 ++
        ((h.drop 16).take 4 ++ (h.drop 20).take 12))) := by
    intro h hl
    have k1 : (h.drop 8).drop 4 = h.drop 12 := by rw [List.drop_drop]
    have k2 : (h.drop 12).drop 4 = h.drop 16 := by rw [List.drop_drop]
    have k3 : (h.drop 16).drop 4 = h.drop 20 := by rw [List.drop_drop]
    have d20 : (h.drop 20).take 12 = h.drop 20 :=
      List.take_of_length_le (by simp [hl])
    rw [d20, ← k3, List.take_append_drop, ← k2, List.take_append_drop,
      ← k1, List.take_append_drop, List.take_append_drop]
  rw [r h₁ l₁, r h₂ l₂, e4, he2, he3, he4, he5]

theorem uuidOfBuffer_take (buf : List Nat) :
    uuidOfBuffer buf = formatUUID (hexOfBytes (buf.take 16)) := by
  simp [uuidOfBuffer, jsSlice]

/-- The predicate tested by `VLESS_USERS.find` holds exactly when the first
16 buffer bytes are the configured user's identifier bytes. -/
theorem vlessPred_iff (buf : List Nat) (hw : ∀ b ∈ buf, b < 256) :
    (lowList vlessUser0.uuid == lowList (uuidOfBuffer buf)) = true ↔
      buf.take 16 = vlessUserBytes := by
  have hwt : ∀ b ∈ buf.take 16, b < 256 :=
    fun b hb => hw b (List.take_subset 16 buf hb)
  rw [beq_iff_eq, uuidOfBuffer_take]
  rw [show lowList vlessUser0.uuid = vlessUser0.uuid from by decide]
  rw [lowList_formatUUID, lowList_hexOfBytes _ hwt]
  constructor
  · intro he
    have hlen : (buf.take 16).length ≤ 16 := by
      simp [List.length_take]
    by_cases h16 : (buf.take 16).length = 16
    · have hx : (hexOfBytes (buf.take 16)).length = 32 := by
        rw [hexOfBytes_length, h16]
      have hu : vlessUser0.uuid = formatUUID uuidHexChars := by decide
      rw [hu] at he
      have := formatUUID_inj32 uuidHexChars (hexOfBytes (buf.take 16))
        (by decide) hx he
      have hT : uuidHexChars = hexOfBytes vlessUserBytes := by decide
      rw [hT] at this
      exact (hexOfBytes_inj vlessUserBytes (buf.take 16)
        (by decide) hwt this).symm
    · exfalso
      have := congrArg List.length he
      rw [formatUUID_length, hexOfBytes_length] at this
      have hu : (vlessUser0.uuid).length = 36 := by decide
      rw [hu] at this
      omega
  · intro he
    rw [he]
    decide

theorem vlessFind_eq_some (buf : List Nat) (hw : ∀ b ∈ buf, b < 256)
    (h : buf.take 16 = vlessUserBytes) : vlessFind buf = some vlessUser0 := by
  unfold vlessFind VLESS_USERS
  simp only [List.find?]
  rw [(vlessPred_iff buf hw).mpr h]

theorem vlessFind_eq_none (buf : List Nat) (hw : ∀ b ∈ buf, b < 256)
    (h : buf.take 16 ≠ vlessUserBytes) : vlessFind buf = none := by
  unfold vlessFind VLESS_USERS
  simp only [List.find?]
  have : (lowList vlessUser0.uuid == lowList (uuidOfBuffer buf)) = false := by
    rcases hb : (lowList vlessUser0.uuid == lowList (uuidOfBuffer buf)) with _ | _
    · rfl
    · exact absurd ((vlessPred_iff buf hw).mp hb) h
  rw [this]

theorem vlessFind_isSome_iff (buf : List Nat) (hw : ∀ b ∈ buf, b < 256) :
    (vlessFind buf).isSome = true ↔ buf.take 16 = vlessUserBytes := by
  constructor
  · intro hs
    by_contra hT
    rw [vlessFind_eq_none buf hw hT] at hs
    simp at hs
  · intro hT
    rw [vlessFind_eq_some buf hw hT]
    rfl

/-! ## Helper lemmas: reads at in-range indices ignore appended bytes -/

theorem jsIndex_append (buf extra : List Nat) (i : Nat) (h : i < buf.length) :
    jsIndex (buf ++ extra) i = jsIndex buf i := by
  unfold jsIndex
  exact List.getElem?_append_left h

theorem jsSlice_append (buf extra : List Nat) (e : Nat) (h : e ≤ buf.length) :
    jsSlice (buf ++ extra) 0 e = jsSlice buf 0 e := by
  unfold jsSlice
  rw [List.take_append_of_le_length h]

/-! ## Helper lemmas: session runs -/

theorem runSession_nil (s : SessState) : runSession s [] = (s, [], 0) := by
  cases s <;> rfl

theorem runSession_udpDone (msgs : List MessageData) :
    runSession SessState.udpDone msgs = (SessState.udpDone, [], 0) := by
  induction msgs with
  | nil => rfl
  | cons m ms ih => simpa [runSession] using ih

theorem runSession_closed (msgs : List MessageData) :
    runSession SessState.closed msgs = (SessState.closed, [], 0) := by
  induction msgs with
  | nil => rfl
  | cons m ms ih => simpa [runSession] using ih

theorem finishConn_next_ne (u h : List Char) (p : Nat) (d : Bool) :
    (finishConn u h p d).next ≠ SessState.awaitingFirst := by
  unfold finishConn
  cases d <;> simp

theorem firstMessage_next_ne (m : MessageData) :
    (firstMessage m).next ≠ SessState.awaitingFirst := by
  cases m with
  | text s => simp [firstMessage]
  | binary buf =>
    simp only [firstMessage]
    rcases hv : vlessFind buf with _ | u
    · simp
    · rcases h20 : jsIndex buf 20 with _ | n
      · simp
      · rcases n with _ | _ | _ | _ | n <;> simp [finishConn_next_ne]

theorem runSession_no_reparse (msgs : List MessageData) : ∀ s : SessState,
    s ≠ SessState.awaitingFirst →
    (runSession s msgs).2.2 = 0 ∧ (runSession s msgs).1 ≠ SessState.awaitingFirst := by
  induction msgs with
  | nil => intro s h; exact ⟨by rw [runSession_nil], by rw [runSession_nil]; exact h⟩
  | cons m ms ih =>
    intro s h
    cases s with
    | awaitingFirst => exact absurd rfl h
    | tcpRelay host port =>
      have hih := ih (if anyClose (proxyTCPMessage host port m) then SessState.closed
        else SessState.tcpRelay host port) (by split <;> simp)
      simpa [runSession] using hih
    | udpDone =>
      simpa [runSession] using ih SessState.udpDone (by simp)
    | closed =>
      simpa [runSession] using ih SessState.closed (by simp)

/-! ## Claim theorems -/

/-- C4: authentication is an exact match on the 16 identifier bytes — a
first message whose first 16 bytes are the configured user's identifier
bytes authenticates (the `find` succeeds), and any other identifier (any
single bit flipped included) fails; on failure the handler's only action is
`close(1008, 'Invalid user')` — no success response is sent, no relay phase
is entered, and (as the failure path shows and the action type records) no
connection to any destination is ever made. -/
theorem claimC4_auth_exact_match (buf : List Nat) (hw : ∀ b ∈ buf, b < 256) :
    ((vlessFind buf).isSome = true ↔ buf.take 16 = vlessUserBytes) ∧
    (buf.take 16 ≠ vlessUserBytes →
      firstMessage (MessageData.binary buf) =
        { vars := {}, acts := [Action.close 1008 "Invalid user".toList],
          next := SessState.closed }) := by
  refine ⟨vlessFind_isSome_iff buf hw, fun hT => ?_⟩
  simp only [firstMessage]
  rw [vlessFind_eq_none buf hw hT]

/-- Witness for C4 at the single-bit-flip input `flippedBytes`. -/
theorem claimC4_witness :
    firstMessage (MessageData.binary flippedBytes) =
      { vars := {}, acts := [Action.close 1008 "Invalid user".toList],
        next := SessState.closed } :=
  (claimC4_auth_exact_match flippedBytes (by decide)).2 (by decide)

/-- C6 (counterexample): a 17-byte first message that begins with the valid
identifier does NOT fail with a pre-address-decode `Truncated` error: the
session authenticates (`userId` is assigned), the address-type dispatch is
reached, and the close reason is `'Invalid address type'` (the reason of the
address switch's default arm), produced by reads past the end of the buffer
yielding `undefined`.  No `Truncated` failure exists in the code. -/
theorem claimC6_counterexample :
    firstMessage (MessageData.binary shortBuf17) =
      { vars := { userId := some vlessUser0.uuid, targetHost := none,
                  targetPort := none, isUDP := false },
        acts := [Action.close 1008 "Invalid address type".toList],
        next := SessState.closed } := by decide

/-- C6 (amended): a first message shorter than 18 bytes is closed with code
1008 — reason `'Invalid user'` when its first 16 bytes are not the loaded
identifier, reason `'Invalid address type'` otherwise (the address switch is
reached and its `undefined` type byte hits the default arm); in both cases
no out-of-bounds fault occurs (out-of-range reads yield `undefined`), the
success response is never sent, and the session never enters Relaying
(`next = closed`). -/
theorem claimC6_short_buffer_behavior (buf : List Nat)
    (hw : ∀ b ∈ buf, b < 256) (hlen : buf.length < 18) :
    (buf.take 16 ≠ vlessUserBytes →
      firstMessage (MessageData.binary buf) =
        { vars := {}, acts := [Action.close 1008 "Invalid user".toList],
          next := SessState.closed }) ∧
    (buf.take 16 = vlessUserBytes →
      firstMessage (MessageData.binary buf) =
        { vars := { userId := some vlessUser0.uuid },
          acts := [Action.close 1008 "Invalid address type".toList],
          next := SessState.closed }) := by
  constructor
  · intro hT
    simp only [firstMessage]
    rw [vlessFind_eq_none buf hw hT]
  · intro hT
    have h20 : jsIndex buf 20 = none := List.getElem?_eq_none (by omega)
    have hstep : firstMessage (MessageData.binary buf) =
        { vars := { userId := some (uuidOfBuffer buf) },
          acts := [Action.close 1008 "Invalid address type".toList],
          next := SessState.closed } := by
      simp only [firstMessage]
      rw [vlessFind_eq_some buf hw hT, h20]
    rw [hstep, uuidOfBuffer_take, hT]
    decide

/-- Witness for C6 (amended) at a 17-byte all-zero buffer. -/
theorem claimC6_witness :
    firstMessage (MessageData.binary (List.replicate 17 0)) =
      { vars := {}, acts := [Action.close 1008 "Invalid user".toList],
        next := SessState.closed } :=
  (claimC6_short_buffer_behavior (List.replicate 17 0) (by decide)
    (by decide)).1 (by decide)

/-- C8 (counterexample): a complete handshake whose command byte is `3`
(neither 1 nor 2) is NOT rejected with `UnsupportedCommand`: the code only
compares the command byte against `2`, so command `3` is treated as TCP —
the success response `[0,0]` is sent and the session enters the TCP relay
phase. -/
theorem claimC8_counterexample :
    firstMessage (MessageData.binary hsCmd3Buf) =
      { vars := { userId := some vlessUser0.uuid,
                  targetHost := some "93.184.216.34".toList,
                  targetPort := some 443, isUDP := false },
        acts := [Action.send [0, 0],
                 Action.registerTCPProxy "93.184.216.34".toList 443],
        next := SessState.tcpRelay "93.184.216.34".toList 443 } := by decide

/-- C8 (amended): the command byte is only ever compared against `2`; for an
authenticated IPv4 handshake with any command byte `c ≠ 2` (including values
other than 1, which the specification says must fail), the session proceeds
as TCP: `isUDP` is false, the success response is sent, and the TCP relay
phase is entered.  No `UnsupportedCommand` failure path exists. -/
theorem claimC8_command_not_two_is_tcp (buf : List Nat)
    (hw : ∀ b ∈ buf, b < 256) (hid : buf.take 16 = vlessUserBytes)
    (c : Nat) (h17 : jsIndex buf 17 = some c) (hc : c ≠ 2)
    (h20 : jsIndex buf 20 = some 1) :
    firstMessage (MessageData.binary buf) =
      { vars := { userId := some vlessUser0.uuid,
                  targetHost := some (ipv4Text buf),
                  targetPort := some (portValue buf), isUDP := false },
        acts := [Action.send [0, 0],
                 Action.registerTCPProxy (ipv4Text buf) (portValue buf)],
        next := SessState.tcpRelay (ipv4Text buf) (portValue buf) } := by
  have hstep : firstMessage (MessageData.binary buf) =
      finishConn (uuidOfBuffer buf) (ipv4Text buf) (portValue buf)
        (jsIndex buf 17 == some 2) := by
    simp only [firstMessage]
    rw [vlessFind_eq_some buf hw hid, h20]
  have hud : (jsIndex buf 17 == some 2) = false := by
    rw [h17]
    simp [hc]
  have huuid : uuidOfBuffer buf = vlessUser0.uuid := by
    rw [uuidOfBuffer_take, hid]
    decide
  rw [hstep, hud, huuid]
  rfl

/-- Witness for C8 (amended) at command byte `0`. -/
theorem claimC8_witness :
    firstMessage (MessageData.binary hsCmd0Buf) =
      { vars := { userId := some vlessUser0.uuid,
                  targetHost := some "10.1.2.3".toList,
                  targetPort := some 443, isUDP := false },
        acts := [Action.send [0, 0],
                 Action.registerTCPProxy "10.1.2.3".toList 443],
        next := SessState.tcpRelay "10.1.2.3".toList 443 } :=
  (claimC8_command_not_two_is_tcp hsCmd0Buf (by decide) (by decide) 0
    (by decide) (by decide) (by decide)).trans (by decide)

/-- C3 (counterexample): payload bytes trailing the handshake in the first
message are NOT forwarded anywhere — a first message consisting of a
complete 25-byte TCP handshake followed by four payload bytes produces
exactly the same handler result as the bare handshake, and the emitted
actions (success response, relay-listener registration) contain none of the
payload bytes. -/
theorem claimC3_counterexample :
    firstMessage (MessageData.binary (hsC3Buf ++ payloadTail)) =
        firstMessage (MessageData.binary hsC3Buf) ∧
      firstMessage (MessageData.binary (hsC3Buf ++ payloadTail)) =
        { vars := { userId := some vlessUser0.uuid,
                    targetHost := some "10.0.0.1".toList,
                    targetPort := some 80, isUDP := false },
          acts := [Action.send [0, 0],
                   Action.registerTCPProxy "10.0.0.1".toList 80],
          next := SessState.tcpRelay "10.0.0.1".toList 80 } := by
  constructor <;> decide

/-- C3 (amended): the first-message handler ignores every byte after the
address field — appending arbitrary `extra` bytes to any complete 25-byte
IPv4-type handshake leaves the entire result (variables, actions, next
state) unchanged, so trailing payload is silently discarded rather than
forwarded. -/
theorem claimC3_trailing_payload_ignored (buf extra : List Nat)
    (hlen : buf.length = 25) (h20 : jsIndex buf 20 = some 1) :
    firstMessage (MessageData.binary (buf ++ extra)) =
      firstMessage (MessageData.binary buf) := by
  have h16 : jsSlice (buf ++ extra) 0 16 = jsSlice buf 0 16 :=
    jsSlice_append buf extra 16 (by omega)
  have hu : uuidOfBuffer (buf ++ extra) = uuidOfBuffer buf := by
    unfold uuidOfBuffer
    rw [h16]
  have hf : vlessFind (buf ++ extra) = vlessFind buf := by
    unfold vlessFind
    rw [hu]
  have h17 : jsIndex (buf ++ extra) 17 = jsIndex buf 17 :=
    jsIndex_append buf extra 17 (by omega)
  have h20e : jsIndex (buf ++ extra) 20 = some 1 := by
    rw [jsIndex_append buf extra 20 (by omega), h20]
  have hport : portValue (buf ++ extra) = portValue buf := by
    unfold portValue
    rw [jsIndex_append buf extra 18 (by omega),
      jsIndex_append buf extra 19 (by omega)]
  have hip : ipv4Text (buf ++ extra) = ipv4Text buf := by
    unfold ipv4Text
    rw [jsIndex_append buf extra 21 (by omega),
      jsIndex_append buf extra 22 (by omega),
      jsIndex_append buf extra 23 (by omega),
      jsIndex_append buf extra 24 (by omega)]
  rcases hv : vlessFind buf with _ | u
  · have l1 : firstMessage (MessageData.binary (buf ++ extra)) =
        { vars := {}, acts := [Action.close 1008 "Invalid user".toList],
          next := SessState.closed } := by
      simp only [firstMessage]
      rw [hf, hv]
    have l2 : firstMessage (MessageData.binary buf) =
        { vars := {}, acts := [Action.close 1008 "Invalid user".toList],
          next := SessState.closed } := by
      simp only [firstMessage]
      rw [hv]
    rw [l1, l2]
  · have l1 : firstMessage (MessageData.binary (buf ++ extra)) =
        finishConn (uuidOfBuffer (buf ++ extra)) (ipv4Text (buf ++ extra))
          (portValue (buf ++ extra)) (jsIndex (buf ++ extra) 17 == some 2) := by
      simp only [firstMessage]
      rw [hf, hv, h20e]
    have l2 : firstMessage (MessageData.binary buf) =
        finishConn (uuidOfBuffer buf) (ipv4Text buf) (portValue buf)
          (jsIndex buf 17 == some 2) := by
      simp only [firstMessage]
      rw [hv, h20]
    rw [l1, l2, hu, hip, hport, h17]

/-- Witness for C3 (amended): three extra bytes after a 25-byte handshake. -/
theorem claimC3_witness :
    firstMessage (MessageData.binary (hsC3Buf ++ [1, 2, 3])) =
      firstMessage (MessageData.binary hsC3Buf) :=
  claimC3_trailing_payload_ignored hsC3Buf [1, 2, 3] (by decide) (by decide)

/-- C1 (counterexample): for a fully valid TCP handshake the success
response `[0,0]` is the handler's FIRST action — before it no upstream
connection is opened (no action of the session ever opens one; the only
outbound mechanism, `fetch`, does not occur here, as the second conjunct
states), so the response is not sent "only after the upstream connection has
been successfully opened"; there is also no connect-failure path that could
suppress it. -/
theorem claimC1_counterexample :
    firstMessage (MessageData.binary hsTCPBuf) =
      { vars := { userId := some vlessUser0.uuid,
                  targetHost := some "93.184.216.34".toList,
                  targetPort := some 443, isUDP := false },
        acts := [Action.send [0, 0],
                 Action.registerTCPProxy "93.184.216.34".toList 443],
        next := SessState.tcpRelay "93.184.216.34".toList 443 } ∧
    ∀ a ∈ (firstMessage (MessageData.binary hsTCPBuf)).acts,
      isFetchAct a = false := by
  constructor <;> decide

/-- C1 (amended): the first-message handler sends the success response
`[0,0]` at most once — exactly once when the handshake succeeds and never
when it fails (every failing branch closes the channel instead,
`next = closed`) — and performs no outbound request (`fetch`) at all, so the
response precedes any contact with the destination rather than following a
successful upstream connection. -/
theorem claimC1_response_at_most_once (m : MessageData) :
    respCount (firstMessage m).acts ≤ 1 ∧
    (∀ a ∈ (firstMessage m).acts, isFetchAct a = false) ∧
    ((firstMessage m).next = SessState.closed →
      respCount (firstMessage m).acts = 0) ∧
    ((firstMessage m).next ≠ SessState.closed →
      respCount (firstMessage m).acts = 1) := by
  cases m with
  | text s => simp [firstMessage, respCount, isResp, isFetchAct]
  | binary buf =>
    simp only [firstMessage]
    rcases hv : vlessFind buf with _ | u
    · simp [respCount, isResp, isFetchAct]
    · rcases h20 : jsIndex buf 20 with _ | n
      · simp [respCount, isResp, isFetchAct]
      · rcases n with _ | _ | _ | _ | n <;>
          cases hb : (jsIndex buf 17 == some 2) <;>
            simp [finishConn, handleUDPActions, respCount, isResp,
              isFetchAct, hb]

/-- Witness for C1 (amended) at a non-binary first message. -/
theorem claimC1_witness :
    respCount (firstMessage (MessageData.text [])).acts = 0 :=
  (claimC1_response_at_most_once (MessageData.text [])).2.2.1 (by decide)

/-- C2 (counterexample): the TCP relay phase is content-sensitive and
client-facing, not a verbatim pump to an upstream connection: on the same
destination (`example.com:80`), a message decoding to an HTTP request text
triggers an application-level `fetch` substitution, while a non-HTTP binary
message is echoed straight back to the CLIENT channel (`websocket.send`);
nothing is forwarded to any upstream connection in either case. -/
theorem claimC2_counterexample :
    proxyTCPMessage "example.com".toList 80
        (MessageData.binary [0x16, 3, 1, 0]) =
      [Action.send [0x16, 3, 1, 0]] ∧
    proxyTCPMessage "example.com".toList 80 (MessageData.binary getReqBytes) =
      [Action.fetchRequest "http://example.com:80".toList
        { method := "GET".toList, headers := [], body := some [] }] := by
  constructor <;> decide

/-- C2 (amended): in the TCP relay phase every binary message that is not
recognised as HTTP — either because the destination is not "http-like"
(port 80/443 or host containing `.com`/`.org`/`.net`) or because its decoded
text does not start with `GET `/`POST `/`CONNECT ` — is echoed back verbatim
to the client channel as the sole action; recognised HTTP text is instead
handled by `fetch`/close substitution. -/
theorem claimC2_echo_non_http (host : List Char) (port : Nat)
    (bytes : List Nat)
    (h : httpLikeDest host port = false ∨
      isHttpText (utf8Decode bytes) = false) :
    proxyTCPMessage host port (MessageData.binary bytes) =
      [Action.send bytes] := by
  simp only [proxyTCPMessage]
  rcases h with h | h <;> simp [h]

/-- Witness for C2 (amended) on a non-http-like destination. -/
theorem claimC2_witness :
    proxyTCPMessage "internal".toList 8080 (MessageData.binary [1, 2, 3]) =
      [Action.send [1, 2, 3]] :=
  claimC2_echo_non_http "internal".toList 8080 [1, 2, 3] (Or.inl (by decide))

/-- C5 (counterexample): in UDP mode no length-prefixed datagram relay
exists — after a valid UDP handshake, a client message that is a perfectly
well-formed framed datagram (`[0,3,0xAA,0xBB,0xCC]`, which the spec's
`UdpFramer` decodes to the single datagram `AA BB CC`) produces NO actions at
all (the handler sent only a simulated text notice and registered no message
listener), so the datagram is never sent to the destination and nothing is
ever framed back. -/
theorem claimC5_counterexample :
    runSession SessState.awaitingFirst
        [MessageData.binary hsUDPBuf,
         MessageData.binary [0, 3, 0xAA, 0xBB, 0xCC]] =
      (SessState.udpDone,
       [Action.send [0, 0],
        Action.sendText (udpSimText "93.184.216.34".toList 53)], 1) ∧
    specUdpDatagrams [0, 3, 0xAA, 0xBB, 0xCC] = some [[0xAA, 0xBB, 0xCC]] := by
  constructor <;> decide

/-- C5 (amended): a UDP-mode session sends only the success response and the
simulated text notice `"UDP to host:port received (simulated)"`; it installs
no further message handler, so every subsequent client message — whatever
its framing — produces no actions and the session state never changes. -/
theorem claimC5_udp_simulated_only (msgs : List MessageData) :
    runSession SessState.awaitingFirst (MessageData.binary hsUDPBuf :: msgs) =
      (SessState.udpDone,
       [Action.send [0, 0],
        Action.sendText (udpSimText "93.184.216.34".toList 53)], 1) := by
  have h1 : (firstMessage (MessageData.binary hsUDPBuf)).next =
      SessState.udpDone := by decide
  have h2 : (firstMessage (MessageData.binary hsUDPBuf)).acts =
      [Action.send [0, 0],
       Action.sendText (udpSimText "93.184.216.34".toList 53)] := by decide
  simp [runSession, h1, h2, runSession_udpDone]

/-- C7: the IPv6 formatter does not produce canonical IPv6 text.  It joins
the SIXTEEN bytes as two-digit hex groups (canonical text has eight 16-bit
groups) and then collapses colon runs left by the zero-elision regexes.  The
all-zero address happens to come out as the canonical `::`, but the all-ones
address yields 16 groups `ff:…:ff` instead of `ffff:ffff:…:ffff`, and
`2001:db8::1` yields `20:1:d:b8::1` — a different address entirely; the same
wrong text becomes the session's `targetHost`. -/
theorem claimC7_ipv6_not_canonical :
    ipv6Format (List.replicate 16 0) = "::".toList ∧
    ipv6Format ipv6AllOnes =
      "ff:ff:ff:ff:ff:ff:ff:ff:ff:ff:ff:ff:ff:ff:ff:ff".toList ∧
    specIPv6Canonical ipv6AllOnes =
      "ffff:ffff:ffff:ffff:ffff:ffff:ffff:ffff".toList ∧
    ipv6Format ipv6AllOnes ≠ specIPv6Canonical ipv6AllOnes ∧
    ipv6Format ipv6Mixed = "20:1:d:b8::1".toList ∧
    specIPv6Canonical ipv6Mixed = "2001:db8::1".toList ∧
    ipv6Format ipv6Mixed ≠ specIPv6Canonical ipv6Mixed ∧
    (firstMessage (MessageData.binary hsIPv6Buf)).vars.targetHost =
      some "ff:ff:ff:ff:ff:ff:ff:ff:ff:ff:ff:ff:ff:ff:ff:ff".toList := by
  refine ⟨by decide, by decide, by decide, by decide, by decide, by decide,
    by decide, by decide⟩

/-- C9: exactly one message per session is ever consumed by the handshake
handler — the `{ once: true }` first listener is used up by the first
message, every continuation state (`tcpRelay`, `udpDone`, `closed`) never
returns to `awaitingFirst`, so over any message sequence the handshake-parse
count is at most 1 and after a first message the session is never again in
the handshake phase. -/
theorem claimC9_single_handshake (msgs : List MessageData) :
    (runSession SessState.awaitingFirst msgs).2.2 ≤ 1 ∧
    (msgs ≠ [] →
      (runSession SessState.awaitingFirst msgs).1 ≠
        SessState.awaitingFirst) := by
  cases msgs with
  | nil =>
    refine ⟨by rw [runSession_nil]; simp, fun h => absurd rfl h⟩
  | cons m ms =>
    have h := runSession_no_reparse ms (firstMessage m).next
      (firstMessage_next_ne m)
    constructor
    · simp only [runSession]
      omega
    · intro _
      simp only [runSession]
      exact h.2

/-- Witness for C9 on a one-message session. -/
theorem claimC9_witness :
    (runSession SessState.awaitingFirst [MessageData.text []]).1 ≠
      SessState.awaitingFirst :=
  (claimC9_single_handshake [MessageData.text []]).2 (by simp)

/-- C10: the first-message handler is total on binary input — every byte
buffer (any length; out-of-range reads yield `undefined`, never a fault)
produces exactly one of four well-defined outcomes: `close(1008, 'Invalid
user')` whenever the first 16 bytes are not a configured identifier,
`close(1008, 'Invalid address type')`, or a success (response plus TCP relay
registration, or response plus simulated-UDP notice).  No branch of the
embedded handler throws, which is why the source's `catch`/`close(1011,
'Protocol error')` wrapper is unreachable in the model. -/
theorem claimC10_handler_total (buf : List Nat) (hw : ∀ b ∈ buf, b < 256) :
    (buf.take 16 ≠ vlessUserBytes →
      firstMessage (MessageData.binary buf) =
        { vars := {}, acts := [Action.close 1008 "Invalid user".toList],
          next := SessState.closed }) ∧
    ((firstMessage (MessageData.binary buf)).acts =
        [Action.close 1008 "Invalid user".toList] ∨
     (firstMessage (MessageData.binary buf)).acts =
        [Action.close 1008 "Invalid address type".toList] ∨
     (∃ hst p, (firstMessage (MessageData.binary buf)).acts =
          [Action.send [0, 0], Action.registerTCPProxy hst p] ∧
        (firstMessage (MessageData.binary buf)).next =
          SessState.tcpRelay hst p) ∨
     (∃ hst p, (firstMessage (MessageData.binary buf)).acts =
          [Action.send [0, 0], Action.sendText (udpSimText hst p)] ∧
        (firstMessage (MessageData.binary buf)).next =
          SessState.udpDone)) := by
  constructor
  · intro hT
    simp only [firstMessage]
    rw [vlessFind_eq_none buf hw hT]
  · simp only [firstMessage]
    rcases hv : vlessFind buf with _ | u
    · left
      rfl
    · rcases h20 : jsIndex buf 20 with _ | n
      · right
        left
        rfl
      · rcases n with _ | _ | _ | _ | n <;>
          cases hb : (jsIndex buf 17 == some 2) <;>
            simp [finishConn, handleUDPActions, hb]

/-- Witness for C10 at the empty buffer. -/
theorem claimC10_witness :
    firstMessage (MessageData.binary []) =
      { vars := {}, acts := [Action.close 1008 "Invalid user".toList],
        next := SessState.closed } :=
  (claimC10_handler_total [] (by decide)).1 (by decide)

end VlessWorker
